import Mathlib

/-!
Verification of the typed-column-to-dense-matrix conversion pipeline of
`xgboost-rust` (`src/polars_ext.rs`): the per-cell coercion
`extract_f32_value`, the row-major builder `dataframe_to_dense`, and the
prediction wrappers `predict_dataframe` / `predict_dataframe_with_columns`.

The polars collaborator (Series, DataFrame, select, ChunkedArray::get) is
modelled by its documented behaviour: a series is a dtype-tagged array of
possibly-null cells, `ChunkedArray::get` is bounds-checked and yields `none`
both for a null entry and for an out-of-range index, `DataFrame::height` is
the length of the first column (0 when there are no columns), and
`DataFrame::select` resolves names left to right, failing on the first name
that does not occur in the frame.

Machine floating-point values are represented symbolically: `F32.ofInt n`
denotes the `f32` that Rust's `as` cast produces from the integer `n` (this
also covers `1.0` / `0.0` for booleans and integral `f32` literals), and
`F32.ofF64 d` denotes the narrowing cast of the double `d`.  The numeric
rounding of these casts lies outside the embedding; the symbols record
exactly which conversion the code applied to which payload.
-/

namespace XGB

/-- Payload of a Float64 column: a Rust `f64` value, kept opaque (only its
identity matters to the pipeline; the narrowing cast is the uninterpreted
symbol `F32.ofF64`). -/
structure F64 where
  tok : Int
  deriving DecidableEq

/-- Symbolic 32-bit floats: `ofInt n` is the result of a Rust `as` cast from
the integer `n` (booleans contribute `ofInt 1` / `ofInt 0`, matching `1.0` /
`0.0`); `ofF64 d` is the narrowing `f64 as f32` cast of `d`. -/
inductive F32 where
  | ofInt : Int → F32
  | ofF64 : F64 → F32
  deriving DecidableEq

/-- Model of a polars Series: one constructor per dtype arm of
`extract_f32_value`, carrying the physical cell array (a `none` cell is a
polars null).  `strCol` and `dateCol` stand for dtypes hitting the fallback
arm (polars displays them as `str` and `date`).  Polars guarantees dtype and
physical array agree, so the `series.i8()`-style casts of the source are
infallible and their dead error arms are not modelled. -/
inductive Series where
  | f32Col (xs : List (Option F32))
  | f64Col (xs : List (Option F64))
  | i8Col (xs : List (Option Int))
  | i16Col (xs : List (Option Int))
  | i32Col (xs : List (Option Int))
  | i64Col (xs : List (Option Int))
  | u8Col (xs : List (Option Nat))
  | u16Col (xs : List (Option Nat))
  | u32Col (xs : List (Option Nat))
  | u64Col (xs : List (Option Nat))
  | boolCol (xs : List (Option Bool))
  | strCol (xs : List (Option String))
  | dateCol (xs : List (Option Int))
  deriving DecidableEq

/-- Length of the series (polars `Series::len`). -/
def Series.len : Series → Nat
  | .f32Col xs => xs.length
  | .f64Col xs => xs.length
  | .i8Col xs => xs.length
  | .i16Col xs => xs.length
  | .i32Col xs => xs.length
  | .i64Col xs => xs.length
  | .u8Col xs => xs.length
  | .u16Col xs => xs.length
  | .u32Col xs => xs.length
  | .u64Col xs => xs.length
  | .boolCol xs => xs.length
  | .strCol xs => xs.length
  | .dateCol xs => xs.length

/-- Whether the dtype has a coercion arm in `extract_f32_value` (everything
except the fallback `dt => Err(...)` arm). -/
def Series.supported : Series → Bool
  | .strCol _ => false
  | .dateCol _ => false
  | _ => true

/-- Model of polars `ChunkedArray::get`: bounds-checked access that returns
`none` both for an out-of-range index and for a null entry. -/
def caGet (xs : List (Option α)) (i : Nat) : Option α :=
  (xs[i]?).bind id

/-- Whether `ChunkedArray::get` at index `i` yields no value (null entry or
out-of-range index), uniformly over the dtypes. -/
def Series.absentAt (s : Series) (i : Nat) : Bool :=
  match s with
  | .f32Col xs => (caGet xs i).isNone
  | .f64Col xs => (caGet xs i).isNone
  | .i8Col xs => (caGet xs i).isNone
  | .i16Col xs => (caGet xs i).isNone
  | .i32Col xs => (caGet xs i).isNone
  | .i64Col xs => (caGet xs i).isNone
  | .u8Col xs => (caGet xs i).isNone
  | .u16Col xs => (caGet xs i).isNone
  | .u32Col xs => (caGet xs i).isNone
  | .u64Col xs => (caGet xs i).isNone
  | .boolCol xs => (caGet xs i).isNone
  | .strCol xs => (caGet xs i).isNone
  | .dateCol xs => (caGet xs i).isNone

/-- The crate's error type (`src/error.rs`, whose construction sites in
`polars_ext.rs` show a single human-readable `description` field). -/
structure XGBoostError where
  description : String
  deriving DecidableEq

/-- `XGBoostResult` of the crate. -/
abbrev XGBoostResult (α : Type) := Except XGBoostError α

/-- The error built by `format!("Null value at index {}", idx)`. -/
def nullValueError (idx : Nat) : XGBoostError :=
  ⟨"Null value at index " ++ toString idx⟩

/-- The error returned by `dataframe_to_dense` on an empty frame. -/
def emptyInputError : XGBoostError :=
  ⟨"DataFrame has zero rows or columns"⟩

/-- The error built by the fallback arm of `extract_f32_value`, naming the
offending dtype's display form. -/
def unsupportedTypeError (dt : String) : XGBoostError :=
  ⟨"Unsupported data type for conversion to f32: " ++ dt⟩

/-- The error built by `predict_dataframe_with_columns` when the polars
`select` fails, wrapping the polars message. -/
def columnSelectionError (msg : String) : XGBoostError :=
  ⟨"Failed to select columns: " ++ msg⟩

/-- `extract_f32_value` of `src/polars_ext.rs`: dispatch on the dtype, fetch
the cell with `ChunkedArray::get`, fail with the null-value error when absent,
coerce to f32 when present (booleans to `1.0` / `0.0`), and reject any other
dtype naming it. -/
def extract_f32_value (series : Series) (idx : Nat) : XGBoostResult F32 :=
  match series with
  | .f32Col xs =>
    match caGet xs idx with
    | some v => .ok v
    | none => .error (nullValueError idx)
  | .f64Col xs =>
    match caGet xs idx with
    | some v => .ok (F32.ofF64 v)
    | none => .error (nullValueError idx)
  | .i8Col xs =>
    match caGet xs idx with
    | some v => .ok (F32.ofInt v)
    | none => .error (nullValueError idx)
  | .i16Col xs =>
    match caGet xs idx with
    | some v => .ok (F32.ofInt v)
    | none => .error (nullValueError idx)
  | .i32Col xs =>
    match caGet xs idx with
    | some v => .ok (F32.ofInt v)
    | none => .error (nullValueError idx)
  | .i64Col xs =>
    match caGet xs idx with
    | some v => .ok (F32.ofInt v)
    | none => .error (nullValueError idx)
  | .u8Col xs =>
    match caGet xs idx with
    | some v => .ok (F32.ofInt (Int.ofNat v))
    | none => .error (nullValueError idx)
  | .u16Col xs =>
    match caGet xs idx with
    | some v => .ok (F32.ofInt (Int.ofNat v))
    | none => .error (nullValueError idx)
  | .u32Col xs =>
    match caGet xs idx with
    | some v => .ok (F32.ofInt (Int.ofNat v))
    | none => .error (nullValueError idx)
  | .u64Col xs =>
    match caGet xs idx with
    | some v => .ok (F32.ofInt (Int.ofNat v))
    | none => .error (nullValueError idx)
  | .boolCol xs =>
    match caGet xs idx with
    | some b => .ok (if b then F32.ofInt 1 else F32.ofInt 0)
    | none => .error (nullValueError idx)
  | .strCol _ => .error (unsupportedTypeError "str")
  | .dateCol _ => .error (unsupportedTypeError "date")

/-- Model of a polars DataFrame: the ordered named columns. -/
structure DataFrame where
  columns : List (String × Series)
  deriving DecidableEq

/-- Polars `DataFrame::height`: length of the first column, 0 if none. -/
def DataFrame.height (df : DataFrame) : Nat :=
  match df.columns with
  | [] => 0
  | c :: _ => c.2.len

/-- Polars `DataFrame::width`: the number of columns. -/
def DataFrame.width (df : DataFrame) : Nat :=
  df.columns.length

/-- Left-to-right fail-fast traversal: the loop that computes one value per
element and aborts on the first error, as the source's `?`-operator inside
the push loop does. -/
def mapExcept (f : α → Except ε β) : List α → Except ε (List β)
  | [] => .ok []
  | x :: xs =>
    match f x with
    | .error e => .error e
    | .ok y =>
      match mapExcept f xs with
      | .error e => .error e
      | .ok ys => .ok (y :: ys)

/-- Concatenation of the per-row value lists into the single output buffer
(the successive `data.push(value)` calls of the source). -/
def joinAll : List (List α) → List α
  | [] => []
  | l :: ls => l ++ joinAll ls

/-- `dataframe_to_dense` of `src/polars_ext.rs`: reject an empty frame, then
for each row index in `0..height`, visit every column in frame order and push
the coerced cell, failing fast on the first coercion error. -/
def dataframe_to_dense (df : DataFrame) : XGBoostResult (List F32 × Nat × Nat) :=
  let num_rows := df.height
  let num_features := df.width
  if num_rows == 0 || num_features == 0 then
    .error emptyInputError
  else
    match mapExcept
        (fun row_idx => mapExcept (fun col => extract_f32_value col.2 row_idx) df.columns)
        (List.range num_rows) with
    | .error e => .error e
    | .ok rows => .ok (joinAll rows, num_rows, num_features)

/-- Look up a column of the frame by name (polars column resolution). -/
def lookupColumn (df : DataFrame) (n : String) : Option (String × Series) :=
  df.columns.find? (fun c => c.1 == n)

/-- Resolve the requested names left to right, failing on the first name not
present in the frame (polars `ColumnNotFound`, displayed naming the column). -/
def selectColumns (df : DataFrame) : List String → Except String (List (String × Series))
  | [] => .ok []
  | n :: ns =>
    match lookupColumn df n with
    | none => .error ("not found: " ++ n)
    | some c =>
      match selectColumns df ns with
      | .error e => .error e
      | .ok cs => .ok (c :: cs)

/-- Model of polars `DataFrame::select`: the frame consisting of exactly the
named columns in the caller-given order, or the first resolution error. -/
def DataFrame.select (df : DataFrame) (names : List String) : Except String DataFrame :=
  match selectColumns df names with
  | .error e => .error e
  | .ok cs => .ok ⟨cs⟩

/-- Modelled from the spec: the `Booster` (defined in `src/model.rs`, absent
from the included sources) whose `predict` is an opaque, synchronous external
engine call taking buffer, row count, feature count, option mask and training
flag, and returning a flat score vector or an error. -/
structure Booster where
  predictImpl : List F32 → Nat → Nat → Nat → Bool → XGBoostResult (List F32)

/-- The opaque engine call (pure pass-through of buffer, shape and flags). -/
def Booster.predict (b : Booster) (data : List F32) (num_rows num_features : Nat)
    (option_mask : Nat) (training : Bool) : XGBoostResult (List F32) :=
  b.predictImpl data num_rows num_features option_mask training

/-- `predict_dataframe` of `src/polars_ext.rs`: convert the whole frame, then
hand buffer and shape to the engine. -/
def predict_dataframe (b : Booster) (df : DataFrame) (option_mask : Nat)
    (training : Bool) : XGBoostResult (List F32) :=
  match dataframe_to_dense df with
  | .error e => .error e
  | .ok (data, num_rows, num_features) =>
    b.predict data num_rows num_features option_mask training

/-- `predict_dataframe_with_columns` of `src/polars_ext.rs`: select the named
columns (wrapping a selection failure), convert the selection, then call the
engine. -/
def predict_dataframe_with_columns (b : Booster) (df : DataFrame)
    (columns : List String) (option_mask : Nat) (training : Bool) :
    XGBoostResult (List F32) :=
  match df.select columns with
  | .error e => .error (columnSelectionError e)
  | .ok selected =>
    match dataframe_to_dense selected with
    | .error e => .error e
    | .ok (data, num_rows, num_features) =>
      b.predict data num_rows num_features option_mask training

/-- Whether some column of the frame has no value at row `r` (null or out of
range). -/
def rowNull (df : DataFrame) (r : Nat) : Bool :=
  df.columns.any (fun c => c.2.absentAt r)

/-- Sample frame: two i32 columns, two rows. -/
def dfPair : DataFrame :=
  ⟨[("A", .i32Col [some 1, some 3]), ("B", .i32Col [some 2, some 4])]⟩

/-- Sample frame with a null in column A at row 1. -/
def dfNullAt1 : DataFrame :=
  ⟨[("A", .i32Col [some 1, none, some 3])]⟩

/-- Sample frame with nulls in both columns at different rows. -/
def dfTwoNulls : DataFrame :=
  ⟨[("A", .i32Col [none, some 2]), ("B", .i32Col [some 1, none])]⟩

/-- Sample frame whose second column is longer than its first. -/
def dfRagged : DataFrame :=
  ⟨[("A", .i32Col [some 1]), ("B", .i32Col [some 2, some 3])]⟩

/-- Sample frame with one column and no rows. -/
def dfZeroRows : DataFrame :=
  ⟨[("A", .f32Col [])]⟩

/-- Sample engine: scores every row 0. -/
def boosterEx : Booster :=
  ⟨fun _ r _ _ _ => .ok (List.replicate r (F32.ofInt 0))⟩

section Helpers

theorem mapExcept_ok_length {f : α → Except ε β} :
    ∀ {xs : List α} {ys : List β}, mapExcept f xs = .ok ys → ys.length = xs.length := by
  intro xs
  induction xs with
  | nil =>
    intro ys h
    simp only [mapExcept] at h
    cases h
    rfl
  | cons x xs ih =>
    intro ys h
    simp only [mapExcept] at h
    split at h
    · cases h
    · split at h
      · cases h
      · cases h
        simp [ih (by assumption)]

theorem mapExcept_ok_getElem {f : α → Except ε β} :
    ∀ {xs : List α} {ys : List β}, mapExcept f xs = .ok ys →
      ∀ i, i < xs.length →
        ∃ x y, xs[i]? = some x ∧ f x = .ok y ∧ ys[i]? = some y := by
  intro xs
  induction xs with
  | nil =>
    intro ys h i hi
    simp at hi
  | cons x xs ih =>
    intro ys h i hi
    simp only [mapExcept] at h
    split at h
    · cases h
    · rename_i y hy
      split at h
      · cases h
      · rename_i ys0 hys0
        cases h
        cases i with
        | zero => exact ⟨x, y, by simp, hy, by simp⟩
        | succ j =>
          have := ih hys0 j (by simpa using hi)
          obtain ⟨a, b, h1, h2, h3⟩ := this
          exact ⟨a, b, by simpa using h1, h2, by simpa using h3⟩

theorem mapExcept_ok_mem {f : α → Except ε β} :
    ∀ {xs : List α} {ys : List β}, mapExcept f xs = .ok ys →
      ∀ y ∈ ys, ∃ x ∈ xs, f x = .ok y := by
  intro xs
  induction xs with
  | nil =>
    intro ys h y hy
    simp only [mapExcept] at h
    cases h
    simp at hy
  | cons x xs ih =>
    intro ys h y hy
    simp only [mapExcept] at h
    split at h
    · cases h
    · rename_i y0 hy0
      split at h
      · cases h
      · rename_i ys0 hys0
        cases h
        rcases List.mem_cons.mp hy with h | h
        · exact ⟨x, List.mem_cons_self _ _, h ▸ hy0⟩
        · obtain ⟨a, ha, hfa⟩ := ih hys0 y h
          exact ⟨a, List.mem_cons_of_mem _ ha, hfa⟩

theorem mapExcept_ok_of_forall {f : α → Except ε β} :
    ∀ {xs : List α}, (∀ x ∈ xs, ∃ y, f x = .ok y) →
      ∃ ys, mapExcept f xs = .ok ys := by
  intro xs
  induction xs with
  | nil => exact fun _ => ⟨[], rfl⟩
  | cons x xs ih =>
    intro h
    obtain ⟨y, hy⟩ := h x (List.mem_cons_self _ _)
    obtain ⟨ys, hys⟩ := ih (fun a ha => h a (List.mem_cons_of_mem _ ha))
    exact ⟨y :: ys, by simp only [mapExcept, hy, hys]⟩

theorem mapExcept_first_err {f : α → Except ε β} {x0 : α} {e : ε} :
    ∀ {xs1 : List α} (xs2 : List α),
      (∀ x ∈ xs1, ∃ y, f x = .ok y) → f x0 = .error e →
      mapExcept f (xs1 ++ x0 :: xs2) = .error e := by
  intro xs1
  induction xs1 with
  | nil =>
    intro xs2 _ herr
    simp only [List.nil_append, mapExcept, herr]
  | cons a xs1 ih =>
    intro xs2 hok herr
    obtain ⟨y, hy⟩ := hok a (List.mem_cons_self _ _)
    have hrest := ih xs2 (fun b hb => hok b (List.mem_cons_of_mem _ hb)) herr
    rw [List.cons_append]
    simp only [mapExcept]
    rw [hy, hrest]

theorem joinAll_length_const {w : Nat} :
    ∀ {ls : List (List α)}, (∀ l ∈ ls, l.length = w) →
      (joinAll ls).length = ls.length * w := by
  intro ls
  induction ls with
  | nil => simp [joinAll]
  | cons l ls ih =>
    intro h
    have hl := h l (List.mem_cons_self _ _)
    have := ih (fun a ha => h a (List.mem_cons_of_mem _ ha))
    simp only [joinAll, List.length_append, this, List.length_cons, hl]
    ring

theorem joinAll_getElem {w : Nat} :
    ∀ {ls : List (List α)}, (∀ l ∈ ls, l.length = w) →
      ∀ {r c : Nat} {l : List α}, ls[r]? = some l → c < w →
        (joinAll ls)[r * w + c]? = l[c]? := by
  intro ls
  induction ls with
  | nil =>
    intro _ r c l hr _
    simp at hr
  | cons l0 ls ih =>
    intro h r c l hr hc
    have hl0 : l0.length = w := h l0 (List.mem_cons_self _ _)
    cases r with
    | zero =>
      simp only [List.getElem?_cons_zero, Option.some.injEq] at hr
      subst hr
      simp only [joinAll, Nat.zero_mul, Nat.zero_add]
      exact List.getElem?_append_left (by omega)
    | succ j =>
      simp only [List.getElem?_cons_succ] at hr
      have harith : (j + 1) * w + c = l0.length + (j * w + c) := by
        rw [hl0]; ring
      simp only [joinAll, harith]
      rw [List.getElem?_append_right (by omega)]
      simp only [Nat.add_sub_cancel_left]
      exact ih (fun a ha => h a (List.mem_cons_of_mem _ ha)) hr hc

theorem xgerr_ne_of_head {e₁ e₂ : XGBoostError} (c₁ c₂ : Char)
    (h1 : e₁.description.data.head? = some c₁)
    (h2 : e₂.description.data.head? = some c₂) (hne : c₁ ≠ c₂) : e₁ ≠ e₂ := by
  intro h
  subst h
  rw [h1] at h2
  exact hne (Option.some.inj h2)

theorem nullValueError_head (i : Nat) :
    (nullValueError i).description.data.head? = some 'N' := rfl

theorem emptyInputError_head :
    emptyInputError.description.data.head? = some 'D' := rfl

theorem unsupportedTypeError_head (dt : String) :
    (unsupportedTypeError dt).description.data.head? = some 'U' := rfl

theorem columnSelectionError_head (m : String) :
    (columnSelectionError m).description.data.head? = some 'F' := rfl

end Helpers

section Characterization

theorem extract_absent {s : Series} {i : Nat} (hs : s.supported = true)
    (h : s.absentAt i = true) : extract_f32_value s i = .error (nullValueError i) := by
  cases s
  case strCol xs => simp [Series.supported] at hs
  case dateCol xs => simp [Series.supported] at hs
  all_goals rename_i xs
  all_goals simp only [Series.absentAt, Option.isNone_iff_eq_none] at h
  all_goals simp [extract_f32_value, h]

theorem extract_present {s : Series} {i : Nat} (hs : s.supported = true)
    (h : s.absentAt i = false) : ∃ v, extract_f32_value s i = .ok v := by
  cases s
  case strCol xs => simp [Series.supported] at hs
  case dateCol xs => simp [Series.supported] at hs
  all_goals rename_i xs
  all_goals
    (rcases hc : caGet xs i with _ | v
     · simp [Series.absentAt, hc] at h
     · exact ⟨_, by simp only [extract_f32_value, hc]
                    rfl⟩)

theorem row_ok {cols : List (String × Series)} {r : Nat}
    (hsup : ∀ c ∈ cols, c.2.supported = true)
    (hpres : ∀ c ∈ cols, c.2.absentAt r = false) :
    ∃ vs, mapExcept (fun c => extract_f32_value c.2 r) cols = .ok vs :=
  mapExcept_ok_of_forall (fun c hc => extract_present (hsup c hc) (hpres c hc))

theorem row_err {cols : List (String × Series)} {r : Nat}
    (hsup : ∀ c ∈ cols, c.2.supported = true)
    (hnull : ∃ c ∈ cols, c.2.absentAt r = true) :
    mapExcept (fun c => extract_f32_value c.2 r) cols = .error (nullValueError r) := by
  induction cols with
  | nil => exact absurd hnull (by simp)
  | cons c cols ih =>
    cases hc : c.2.absentAt r with
    | true =>
      have he := extract_absent (hsup c (List.mem_cons_self _ _)) hc
      simp only [mapExcept, he]
    | false =>
      obtain ⟨v, hv⟩ := extract_present (hsup c (List.mem_cons_self _ _)) hc
      have htail : ∃ d ∈ cols, d.2.absentAt r = true := by
        rcases hnull with ⟨d, hd, hda⟩
        rcases List.mem_cons.mp hd with rfl | hd2
        · rw [hda] at hc; cases hc
        · exact ⟨d, hd2, hda⟩
      have hrest := ih (fun a ha => hsup a (List.mem_cons_of_mem _ ha)) htail
      simp only [mapExcept, hv, hrest]

theorem range_decomp {r0 n : Nat} (h : r0 < n) :
    ∃ t, List.range n = List.range r0 ++ r0 :: t := by
  refine ⟨(List.range n).drop (r0 + 1), ?_⟩
  conv_lhs => rw [← List.take_append_drop (r0 + 1) (List.range n)]
  rw [List.take_range]
  have hmin : min (r0 + 1) n = r0 + 1 := by omega
  rw [hmin, List.range_succ, List.append_assoc, List.singleton_append]

theorem dense_guard_false {df : DataFrame} (h0 : df.height ≠ 0) (hw : df.width ≠ 0) :
    (df.height == 0 || df.width == 0) = false := by
  simp [h0, hw]

theorem dense_ok_inv {df : DataFrame} {data : List F32} {rows cols : Nat}
    (h : dataframe_to_dense df = .ok (data, rows, cols)) :
    rows = df.height ∧ cols = df.width ∧
      ∃ rls,
        mapExcept (fun r => mapExcept (fun c => extract_f32_value c.2 r) df.columns)
            (List.range df.height) = .ok rls
        ∧ data = joinAll rls := by
  simp only [dataframe_to_dense] at h
  split at h
  · cases h
  · split at h
    · cases h
    · rename_i rls hrls
      cases h
      exact ⟨rfl, rfl, rls, hrls, rfl⟩

theorem dense_error_first_null {df : DataFrame} {r0 : Nat}
    (hsup : ∀ c ∈ df.columns, c.2.supported = true)
    (hw : df.width ≠ 0)
    (hr0 : r0 < df.height)
    (hnull : rowNull df r0 = true)
    (hmin : ∀ r, r < r0 → rowNull df r = false) :
    dataframe_to_dense df = .error (nullValueError r0) := by
  have h0 : df.height ≠ 0 := by omega
  have hguard := dense_guard_false h0 hw
  obtain ⟨t, ht⟩ := range_decomp hr0
  have herr : mapExcept (fun c => extract_f32_value c.2 r0) df.columns
      = .error (nullValueError r0) := by
    refine row_err hsup ?_
    simpa [rowNull, List.any_eq_true] using hnull
  have hok : ∀ r ∈ List.range r0,
      ∃ vs, mapExcept (fun c => extract_f32_value c.2 r) df.columns = .ok vs := by
    intro r hr
    have hfalse := hmin r (List.mem_range.mp hr)
    refine row_ok hsup ?_
    intro c hc
    simp only [rowNull, List.any_eq_false] at hfalse
    simpa using hfalse c hc
  have hmain : mapExcept
      (fun r => mapExcept (fun c => extract_f32_value c.2 r) df.columns)
      (List.range df.height) = .error (nullValueError r0) := by
    rw [ht]
    exact mapExcept_first_err t hok herr
  simp only [dataframe_to_dense, hguard, Bool.false_eq_true, if_false, hmain]

theorem dense_ok_of_no_null {df : DataFrame}
    (hsup : ∀ c ∈ df.columns, c.2.supported = true)
    (h0 : df.height ≠ 0) (hw : df.width ≠ 0)
    (hnonull : ∀ r, r < df.height → rowNull df r = false) :
    ∃ data, dataframe_to_dense df = .ok (data, df.height, df.width) := by
  have hguard := dense_guard_false h0 hw
  have hok : ∀ r ∈ List.range df.height,
      ∃ vs, mapExcept (fun c => extract_f32_value c.2 r) df.columns = .ok vs := by
    intro r hr
    have hfalse := hnonull r (List.mem_range.mp hr)
    refine row_ok hsup ?_
    intro c hc
    simp only [rowNull, List.any_eq_false] at hfalse
    simpa using hfalse c hc
  obtain ⟨rls, hrls⟩ := mapExcept_ok_of_forall hok
  refine ⟨joinAll rls, ?_⟩
  simp only [dataframe_to_dense, hguard, Bool.false_eq_true, if_false, hrls]

end Characterization

theorem absentAt_of_len_le {s : Series} {i : Nat} (h : s.len ≤ i) :
    s.absentAt i = true := by
  cases s <;> rename_i xs <;>
    (simp only [Series.len] at h
     simp [Series.absentAt, caGet, List.getElem?_eq_none h])

/-- Claim C1: for every successful conversion, the buffer is laid out
row-outer, column-inner: for every `r < rows` and `c < cols`, the element at
flat offset `r * cols + c` is exactly the coerced f32 value of column `c` at
row index `r`. -/
theorem dataframe_to_dense_row_major {df : DataFrame} {data : List F32}
    {rows cols r c : Nat}
    (h : dataframe_to_dense df = .ok (data, rows, cols))
    (hr : r < rows) (hc : c < cols) :
    ∃ col v, df.columns[c]? = some col
      ∧ extract_f32_value col.2 r = .ok v
      ∧ data[r * cols + c]? = some v := by
  obtain ⟨hrows, hcols, rls, hrls, hdata⟩ := dense_ok_inv h
  subst hrows
  subst hcols
  subst hdata
  obtain ⟨x, rowvals, hx, hfx, hrow⟩ :=
    mapExcept_ok_getElem hrls r (by simpa using hr)
  have hxr : x = r := by
    rw [List.getElem?_range (by simpa using hr)] at hx
    exact (Option.some.inj hx).symm
  subst hxr
  obtain ⟨colp, v, hcol, hev, hvc⟩ :=
    mapExcept_ok_getElem hfx c (by simpa [DataFrame.width] using hc)
  have hwidths : ∀ l ∈ rls, l.length = df.width := by
    intro l hl
    obtain ⟨x0, hx0, hfx0⟩ := mapExcept_ok_mem hrls l hl
    simpa [DataFrame.width] using mapExcept_ok_length hfx0
  refine ⟨colp, v, hcol, hev, ?_⟩
  rw [joinAll_getElem hwidths hrow hc, hvc]

/-- Witness for C1: in the 2-by-2 frame `dfPair`, the flat offset
`1 * 2 + 0` holds the coerced cell of column 0 at row 1. -/
theorem dataframe_to_dense_row_major_witness :
    ∃ col v, dfPair.columns[0]? = some col
      ∧ extract_f32_value col.2 1 = .ok v
      ∧ [F32.ofInt 1, F32.ofInt 2, F32.ofInt 3, F32.ofInt 4][1 * 2 + 0]? = some v :=
  @dataframe_to_dense_row_major dfPair
    [F32.ofInt 1, F32.ofInt 2, F32.ofInt 3, F32.ofInt 4] 2 2 1 0 rfl
    (by decide) (by decide)

/-- Claim C2: every successful conversion satisfies the shape invariant:
`data.length = rows * cols`, `rows` is the frame's height and `cols` its
number of columns. -/
theorem dataframe_to_dense_shape {df : DataFrame} {data : List F32}
    {rows cols : Nat}
    (h : dataframe_to_dense df = .ok (data, rows, cols)) :
    data.length = rows * cols ∧ rows = df.height ∧ cols = df.width := by
  obtain ⟨hrows, hcols, rls, hrls, hdata⟩ := dense_ok_inv h
  subst hrows
  subst hcols
  subst hdata
  refine ⟨?_, rfl, rfl⟩
  have hwidths : ∀ l ∈ rls, l.length = df.width := by
    intro l hl
    obtain ⟨x0, hx0, hfx0⟩ := mapExcept_ok_mem hrls l hl
    simpa [DataFrame.width] using mapExcept_ok_length hfx0
  rw [joinAll_length_const hwidths, mapExcept_ok_length hrls, List.length_range]

/-- Witness for C2 at the 2-by-2 frame `dfPair`. -/
theorem dataframe_to_dense_shape_witness :
    ([F32.ofInt 1, F32.ofInt 2, F32.ofInt 3, F32.ofInt 4] : List F32).length = 2 * 2
      ∧ 2 = dfPair.height ∧ 2 = dfPair.width :=
  @dataframe_to_dense_shape dfPair
    [F32.ofInt 1, F32.ofInt 2, F32.ofInt 3, F32.ofInt 4] 2 2 rfl

/-- Claim C7: a column whose dtype has no coercion arm fails with the
UnsupportedType error naming that dtype, at every index and independently of
the column's cells. -/
theorem extract_f32_value_unsupported (xs : List (Option String))
    (ys : List (Option Int)) (idx jdx : Nat) :
    extract_f32_value (.strCol xs) idx = .error (unsupportedTypeError "str")
      ∧ extract_f32_value (.dateCol ys) jdx = .error (unsupportedTypeError "date")
      ∧ (Series.strCol xs).supported = false
      ∧ (Series.dateCol ys).supported = false :=
  ⟨rfl, rfl, rfl, rfl⟩

/-- Claim C8: a frame with zero rows or zero columns is rejected with the
EmptyInput error, whatever the column types, and so is the prediction built
on it. -/
theorem dataframe_to_dense_empty (b : Booster) (df : DataFrame) (mask : Nat)
    (tr : Bool) (h : df.height = 0 ∨ df.width = 0) :
    dataframe_to_dense df = .error emptyInputError
      ∧ predict_dataframe b df mask tr = .error emptyInputError := by
  have hguard : (df.height == 0 || df.width == 0) = true := by
    rcases h with h | h <;> simp [h]
  have hdense : dataframe_to_dense df = .error emptyInputError := by
    simp [dataframe_to_dense, hguard]
  exact ⟨hdense, by simp only [predict_dataframe, hdense]⟩

/-- Witness for C8 at a one-column, zero-row frame. -/
theorem dataframe_to_dense_empty_witness :
    dataframe_to_dense dfZeroRows = .error emptyInputError
      ∧ predict_dataframe boosterEx dfZeroRows 0 false = .error emptyInputError :=
  dataframe_to_dense_empty boosterEx dfZeroRows 0 false (Or.inl rfl)

/-- Claim C9: for a supported column, an index at or past the end of the
series is handled totally: `extract_f32_value` returns exactly the null-value
error that an absent cell at that index produces. -/
theorem extract_f32_value_out_of_range (s : Series) (idx : Nat)
    (hs : s.supported = true) (hlen : s.len ≤ idx) :
    extract_f32_value s idx = .error (nullValueError idx) :=
  extract_absent hs (absentAt_of_len_le hlen)

/-- Witness for C9: reading index 3 of a one-element i32 column. -/
theorem extract_f32_value_out_of_range_witness :
    extract_f32_value (.i32Col [some 5]) 3 = .error (nullValueError 3) :=
  extract_f32_value_out_of_range (.i32Col [some 5]) 3 rfl (by decide)

/-- Claim C10: an empty column-name list is not a selection error: the empty
selection succeeds with a zero-width frame, which the builder then rejects
with the EmptyInput error (whose message differs from every selection-error
message). -/
theorem predict_dataframe_with_columns_empty_names (b : Booster)
    (df : DataFrame) (mask : Nat) (tr : Bool) :
    predict_dataframe_with_columns b df [] mask tr = .error emptyInputError
      ∧ df.select [] = .ok ⟨[]⟩
      ∧ ∀ m, emptyInputError ≠ columnSelectionError m :=
  ⟨rfl, rfl, fun m =>
    xgerr_ne_of_head 'D' 'F' emptyInputError_head (columnSelectionError_head m)
      (by decide)⟩

/-- Counterexample to claim C3 as stated: in `dfTwoNulls`, column "B" has an
absent value at required row index 1, yet the conversion's single error
identifies index 0 — the first null encountered in row-outer order — not
index 1. -/
theorem dataframe_to_dense_null_counterexample :
    dfTwoNulls.columns[1]? = some ("B", Series.i32Col [some 1, none])
      ∧ (Series.i32Col [some 1, none]).absentAt 1 = true
      ∧ (1 : Nat) < dfTwoNulls.height
      ∧ dataframe_to_dense dfTwoNulls = .error (nullValueError 0)
      ∧ nullValueError 0 ≠ nullValueError 1 :=
  ⟨rfl, rfl, by decide, rfl, by decide⟩

/-- Claim C3 (amended): when every column is supported and some column has an
absent value at a required row index, the conversion fails — no partial
buffer, no imputation — with the NullValue error identifying the first row
index (in row-outer iteration order) at which any column's value is absent;
and every NullValue message is distinct from the EmptyInput, UnsupportedType
and column-selection messages. -/
theorem dataframe_to_dense_null_value {df : DataFrame} {r0 : Nat}
    (hsup : ∀ c ∈ df.columns, c.2.supported = true)
    (hw : df.width ≠ 0)
    (hr0 : r0 < df.height)
    (hnull : rowNull df r0 = true)
    (hmin : ∀ r, r < r0 → rowNull df r = false) :
    dataframe_to_dense df = .error (nullValueError r0)
      ∧ (∀ i, nullValueError i ≠ emptyInputError)
      ∧ (∀ i dt, nullValueError i ≠ unsupportedTypeError dt)
      ∧ (∀ i m, nullValueError i ≠ columnSelectionError m) :=
  ⟨dense_error_first_null hsup hw hr0 hnull hmin,
   fun i => xgerr_ne_of_head 'N' 'D' (nullValueError_head i) emptyInputError_head
     (by decide),
   fun i dt => xgerr_ne_of_head 'N' 'U' (nullValueError_head i)
     (unsupportedTypeError_head dt) (by decide),
   fun i m => xgerr_ne_of_head 'N' 'F' (nullValueError_head i)
     (columnSelectionError_head m) (by decide)⟩

/-- Witness for the amended C3: the single-column frame with a null at row 1
fails with the null-value error for index 1. -/
theorem dataframe_to_dense_null_value_witness :
    dataframe_to_dense dfNullAt1 = .error (nullValueError 1) :=
  (@dataframe_to_dense_null_value dfNullAt1 1 (by decide) (by decide) (by decide)
    (by decide) (by decide)).1

/-- Counterexample to claim C4 as stated: `dfRagged`'s two columns report
lengths 1 and 2, yet the builder reports no mismatch error — it converts
`height` rows (the first column's length) and silently drops the second
column's extra cell, returning a truncated matrix. -/
theorem dataframe_to_dense_mismatch_counterexample :
    ("B", Series.i32Col [some 2, some 3]) ∈ dfRagged.columns
      ∧ (Series.i32Col [some 2, some 3]).len ≠ dfRagged.height
      ∧ dataframe_to_dense dfRagged = .ok ([F32.ofInt 1, F32.ofInt 2], 1, 2) :=
  ⟨by decide, by decide, rfl⟩

/-- Claim C4 (amended): the builder performs no up-front column-length
validation; the row count is `df.height`, the first column's length.  Over
supported columns with no null entries: if every column has at least `height`
cells the conversion succeeds, silently ignoring any extra cells of longer
columns; if some column runs out at row `r0` (the first such row) the
conversion fails during iteration with the null-value error for `r0` — a
descriptive error and no out-of-bounds access, but not a pre-iteration
mismatch check. -/
theorem dataframe_to_dense_no_length_check {df : DataFrame}
    (hsup : ∀ c ∈ df.columns, c.2.supported = true)
    (hpres : ∀ c ∈ df.columns, ∀ i, i < c.2.len → c.2.absentAt i = false)
    (h0 : df.height ≠ 0) (hw : df.width ≠ 0) :
    ((∀ c ∈ df.columns, df.height ≤ c.2.len) →
        ∃ data, dataframe_to_dense df = .ok (data, df.height, df.width))
      ∧ (∀ r0, r0 < df.height →
          (∃ c ∈ df.columns, c.2.len ≤ r0) →
          (∀ c ∈ df.columns, ∀ r, r < r0 → r < c.2.len) →
          dataframe_to_dense df = .error (nullValueError r0)) := by
  constructor
  · intro hlong
    refine dense_ok_of_no_null hsup h0 hw ?_
    intro r hr
    simp only [rowNull, List.any_eq_false]
    intro c hc
    simp only [Bool.not_eq_true]
    exact hpres c hc r (lt_of_lt_of_le hr (hlong c hc))
  · intro r0 hr0 hshort hbefore
    have hnull : rowNull df r0 = true := by
      simp only [rowNull, List.any_eq_true]
      obtain ⟨c, hc, hlen⟩ := hshort
      exact ⟨c, hc, absentAt_of_len_le hlen⟩
    have hmin : ∀ r, r < r0 → rowNull df r = false := by
      intro r hr
      simp only [rowNull, List.any_eq_false]
      intro c hc
      simp only [Bool.not_eq_true]
      exact hpres c hc r (hbefore c hc r hr)
    exact dense_error_first_null hsup hw hr0 hnull hmin

/-- Witness for the amended C4: the ragged frame `dfRagged` converts
successfully with the first column's length as its row count. -/
theorem dataframe_to_dense_no_length_check_witness :
    ∃ data, dataframe_to_dense dfRagged = .ok (data, dfRagged.height, dfRagged.width) :=
  (@dataframe_to_dense_no_length_check dfRagged (by decide) (by decide) (by decide)
    (by decide)).1 (by decide)

theorem selectColumns_ok_all_present {df : DataFrame} :
    ∀ {names : List String}, (∀ n ∈ names, (lookupColumn df n).isSome) →
      selectColumns df names = .ok (names.filterMap (lookupColumn df)) := by
  intro names
  induction names with
  | nil => intro _; rfl
  | cons n ns ih =>
    intro h
    have hn := h n (List.mem_cons_self _ _)
    rcases hl : lookupColumn df n with _ | c
    · rw [hl] at hn; cases hn
    · have hrest := ih (fun m hm => h m (List.mem_cons_of_mem _ hm))
      simp [selectColumns, hl, hrest, List.filterMap_cons]

theorem selectColumns_err_missing {df : DataFrame} :
    ∀ {names : List String}, (∃ n ∈ names, lookupColumn df n = none) →
      ∃ msg, selectColumns df names = .error msg := by
  intro names
  induction names with
  | nil => intro h; exact absurd h (by simp)
  | cons n ns ih =>
    intro h
    rcases hl : lookupColumn df n with _ | c
    · exact ⟨"not found: " ++ n, by simp [selectColumns, hl]⟩
    · have htail : ∃ m ∈ ns, lookupColumn df m = none := by
        rcases h with ⟨m, hm, hmn⟩
        rcases List.mem_cons.mp hm with rfl | hm2
        · rw [hl] at hmn; cases hmn
        · exact ⟨m, hm2, hmn⟩
      obtain ⟨msg, hmsg⟩ := ih htail
      exact ⟨msg, by simp [selectColumns, hl, hmsg]⟩

theorem filterMap_lookup_names {df : DataFrame} :
    ∀ {names : List String}, (∀ n ∈ names, (lookupColumn df n).isSome) →
      (names.filterMap (lookupColumn df)).map Prod.fst = names := by
  intro names
  induction names with
  | nil => intro _; rfl
  | cons n ns ih =>
    intro h
    rcases hl : lookupColumn df n with _ | c
    · have hn := h n (List.mem_cons_self _ _); rw [hl] at hn; cases hn
    · have hl2 : df.columns.find? (fun d => d.1 == n) = some c := hl
      have hname : c.1 = n := by simpa using List.find?_some hl2
      have hrest := ih (fun m hm => h m (List.mem_cons_of_mem _ hm))
      simp [List.filterMap_cons, hl, hrest, hname]

/-- Claim C5: `predict_dataframe_with_columns` resolves exactly the named
columns in the caller-given order (which may differ from the frame's natural
order); when every name exists, the result is the full-table path applied to
the selected, reordered frame; when a name is missing, it fails with the
wrapped column-selection error, distinguishable from NullValue and
EmptyInput. -/
theorem predict_dataframe_with_columns_selection (b : Booster) (df : DataFrame)
    (names : List String) (mask : Nat) (tr : Bool) :
    ((∀ n ∈ names, (lookupColumn df n).isSome) →
        ∃ sel, df.select names = .ok sel
          ∧ sel.columns = names.filterMap (lookupColumn df)
          ∧ sel.columns.map Prod.fst = names
          ∧ predict_dataframe_with_columns b df names mask tr
              = predict_dataframe b sel mask tr)
      ∧ ((∃ n ∈ names, lookupColumn df n = none) →
        ∃ msg, df.select names = .error msg
          ∧ predict_dataframe_with_columns b df names mask tr
              = .error (columnSelectionError msg)
          ∧ (∀ i, columnSelectionError msg ≠ nullValueError i)
          ∧ columnSelectionError msg ≠ emptyInputError) := by
  constructor
  · intro h
    have hsel := selectColumns_ok_all_present h
    refine ⟨⟨names.filterMap (lookupColumn df)⟩, ?_, rfl,
      filterMap_lookup_names h, ?_⟩
    · simp [DataFrame.select, hsel]
    · simp only [predict_dataframe_with_columns, DataFrame.select, hsel,
        predict_dataframe]
  · intro h
    obtain ⟨msg, hmsg⟩ := selectColumns_err_missing h
    refine ⟨msg, ?_, ?_, ?_, ?_⟩
    · simp [DataFrame.select, hmsg]
    · simp only [predict_dataframe_with_columns, DataFrame.select, hmsg]
    · exact fun i => xgerr_ne_of_head 'F' 'N' (columnSelectionError_head msg)
        (nullValueError_head i) (by decide)
    · exact xgerr_ne_of_head 'F' 'D' (columnSelectionError_head msg)
        emptyInputError_head (by decide)

/-- Witness for C5: selecting `["B", "A"]` from `dfPair` reverses the natural
column order and the prediction runs on the reordered frame. -/
theorem predict_dataframe_with_columns_selection_witness :
    ∃ sel, dfPair.select ["B", "A"] = .ok sel
      ∧ sel.columns = (["B", "A"] : List String).filterMap (lookupColumn dfPair)
      ∧ sel.columns.map Prod.fst = ["B", "A"]
      ∧ predict_dataframe_with_columns boosterEx dfPair ["B", "A"] 0 false
          = predict_dataframe boosterEx sel 0 false :=
  (predict_dataframe_with_columns_selection boosterEx dfPair ["B", "A"] 0 false).1
    (by decide)

/-- Claim C6: coercion of a present cell is type-directed and total: an f32
cell passes through unchanged, an f64 cell is narrowed (`F32.ofF64`), every
integer width (signed and unsigned, 8 through 64 bits) is converted by the
standard `as` cast on its integer value (`F32.ofInt`, never an overflow
error), and a boolean converts to `1.0` (`true`) or `0.0` (`false`). -/
theorem extract_f32_value_coercion (idx : Nat) :
    (∀ xs (v : F32), caGet xs idx = some v →
        extract_f32_value (.f32Col xs) idx = .ok v)
      ∧ (∀ xs (d : F64), caGet xs idx = some d →
        extract_f32_value (.f64Col xs) idx = .ok (F32.ofF64 d))
      ∧ (∀ xs (n : Int), caGet xs idx = some n →
        extract_f32_value (.i8Col xs) idx = .ok (F32.ofInt n))
      ∧ (∀ xs (n : Int), caGet xs idx = some n →
        extract_f32_value (.i16Col xs) idx = .ok (F32.ofInt n))
      ∧ (∀ xs (n : Int), caGet xs idx = some n →
        extract_f32_value (.i32Col xs) idx = .ok (F32.ofInt n))
      ∧ (∀ xs (n : Int), caGet xs idx = some n →
        extract_f32_value (.i64Col xs) idx = .ok (F32.ofInt n))
      ∧ (∀ xs (n : Nat), caGet xs idx = some n →
        extract_f32_value (.u8Col xs) idx = .ok (F32.ofInt (Int.ofNat n)))
      ∧ (∀ xs (n : Nat), caGet xs idx = some n →
        extract_f32_value (.u16Col xs) idx = .ok (F32.ofInt (Int.ofNat n)))
      ∧ (∀ xs (n : Nat), caGet xs idx = some n →
        extract_f32_value (.u32Col xs) idx = .ok (F32.ofInt (Int.ofNat n)))
      ∧ (∀ xs (n : Nat), caGet xs idx = some n →
        extract_f32_value (.u64Col xs) idx = .ok (F32.ofInt (Int.ofNat n)))
      ∧ (∀ xs, caGet xs idx = some true →
        extract_f32_value (.boolCol xs) idx = .ok (F32.ofInt 1))
      ∧ (∀ xs, caGet xs idx = some false →
        extract_f32_value (.boolCol xs) idx = .ok (F32.ofInt 0)) :=
  ⟨fun xs v h => by simp [extract_f32_value, h],
   fun xs d h => by simp [extract_f32_value, h],
   fun xs n h => by simp [extract_f32_value, h],
   fun xs n h => by simp [extract_f32_value, h],
   fun xs n h => by simp [extract_f32_value, h],
   fun xs n h => by simp [extract_f32_value, h],
   fun xs n h => by simp [extract_f32_value, h],
   fun xs n h => by simp [extract_f32_value, h],
   fun xs n h => by simp [extract_f32_value, h],
   fun xs n h => by simp [extract_f32_value, h],
   fun xs h => by simp [extract_f32_value, h],
   fun xs h => by simp [extract_f32_value, h]⟩

/-- Witness for C6: an f32 cell passes through, `true` becomes `1.0`, a large
i64 value is cast on its integer value, and an f64 cell is narrowed. -/
theorem extract_f32_value_coercion_witness :
    extract_f32_value (.f32Col [some (F32.ofInt 7)]) 0 = .ok (F32.ofInt 7)
      ∧ extract_f32_value (.boolCol [some true, some false]) 0 = .ok (F32.ofInt 1)
      ∧ extract_f32_value (.i64Col [some 1000000]) 0 = .ok (F32.ofInt 1000000)
      ∧ extract_f32_value (.f64Col [some ⟨314⟩]) 0 = .ok (F32.ofF64 ⟨314⟩) :=
  ⟨(extract_f32_value_coercion 0).1 _ _ rfl,
   (extract_f32_value_coercion 0).2.2.2.2.2.2.2.2.2.2.1 _ rfl,
   (extract_f32_value_coercion 0).2.2.2.2.2.1 _ _ rfl,
   (extract_f32_value_coercion 0).2.1 _ _ rfl⟩

end XGB
